import Mathlib

/-
Shallow embedding of src/main.c (ESP32 / FreeRTOS producer-consumer-supervisor
pipeline).

Modelling conventions:
- The FreeRTOS queue `fila` is created with capacity 1 and holds pointers to
  `dado_t`; its state is embedded as `Option dado_t` (occupancy 0 or 1).
- `xQueueSend(fila, &dados, 0)` is non-blocking (tick budget 0); in the
  embedding it is a total function evaluated on the state of the slot at the
  moment of the call.
- `xQueueReceive(fila, &p, pdMS_TO_TICKS(1000))` either yields the resident
  item or times out; the timed blocking itself is abstracted away: a receiver
  cycle is parameterised by the outcome the wait produced.
- The event group `event_supervisor` has two bits, BIT_TASK1_OK and
  BIT_TASK2_OK, embedded as a pair of Booleans; `xEventGroupWaitBits` with
  `xClearOnExit = pdTRUE`, `xWaitForAllBits = pdFALSE` returns the bits set at
  wake time and clears the waited-for bits; a timed-out wait finds both bits
  unset and returns the empty set.
- Side effects of a loop body (printf lines, free calls, WDT feeds, bit sets,
  queue reset) are recorded as an event list, so "happens exactly once" is a
  `List.count` statement.
- C `int` values (`id`, `valor`, `seq`, `timeout`) are embedded as `Nat`: in
  the source they start at 0 or 1 and only ever grow by 1 per second of run
  time, signed overflow being undefined behaviour in C and outside the model.
-/

/-- Data packet `dado_t` from src/main.c: `{ int id; int valor; }`. -/
structure dado_t where
  id : Nat
  valor : Nat
  deriving DecidableEq

/-- Result of `xQueueSend` on the capacity-1 queue: `pdTRUE` or `errQUEUE_FULL`. -/
inductive SendRes
  | ok
  | full
  deriving DecidableEq

/-- `xQueueSend(fila, &d, 0)` on the capacity-1 queue: stores the pointer iff
the slot is empty, otherwise fails immediately leaving the slot untouched. -/
def xQueueSend : Option dado_t → dado_t → SendRes × Option dado_t
  | none, d => (SendRes.ok, some d)
  | some r, _ => (SendRes.full, some r)

/-- Outcome of `xQueueReceive(fila, &p, pdMS_TO_TICKS(1000))`. -/
inductive RecvRes
  | got (d : dado_t)
  | timedOut
  deriving DecidableEq

/-- `xQueueReceive` on the capacity-1 queue: takes the resident item if any,
otherwise times out with no side effect. -/
def xQueueReceive : Option dado_t → RecvRes × Option dado_t
  | none => (RecvRes.timedOut, none)
  | some d => (RecvRes.got d, none)

/-- `xQueueReset(fila)`: empties the queue, discarding any resident item. -/
def xQueueReset (_ : Option dado_t) : Option dado_t := none

/-- One operation on the shared queue. -/
inductive ChanOp
  | sendOp (d : dado_t)
  | recvOp
  | resetOp
  deriving DecidableEq

/-- State of the queue after a sequence of operations. -/
def runChan : Option dado_t → List ChanOp → Option dado_t
  | ch, [] => ch
  | ch, ChanOp.sendOp d :: rest => runChan (xQueueSend ch d).2 rest
  | ch, ChanOp.recvOp :: rest => runChan (xQueueReceive ch).2 rest
  | ch, ChanOp.resetOp :: rest => runChan (xQueueReset ch) rest

/-- Observable side effects of one loop-body execution of Task1 or Task2,
in program order. Log lines carry the values they print. -/
inductive Ev
  | errAllocGen
  | logDrop (id valor : Nat)
  | logTx (id valor : Nat)
  | sigTask1
  | sigTask2
  | freeDado (id valor : Nat)
  | wdtFeed
  | errAllocRx
  | logRx (id valor : Nat)
  | freeTmp (id valor : Nat)
  | freeOrig (id valor : Nat)
  | logAttempt (n : Nat)
  | logAlert
  | logRecov
  | resetFila
  deriving DecidableEq

/-- Result of one Task1 loop-body execution. -/
structure GenOut where
  seq : Nat
  chan : Option dado_t
  created : Option dado_t
  events : List Ev
  deriving DecidableEq

/-- One iteration of Task1's `for(;;)` body (src/main.c lines 33-59).
`allocOk` says whether `malloc(sizeof(dado_t))` succeeded; `ch` is the queue
slot at the moment of the `xQueueSend` call. On allocation failure the body
logs, delays, and `continue`s — skipping `esp_task_wdt_reset()`. Otherwise it
builds `{id = seq, valor = seq}`, increments `seq`, sends with tick budget 0,
and on a full queue logs the drop and frees the packet; only a successful send
sets BIT_TASK1_OK. -/
def Task1Cycle (seq : Nat) (allocOk : Bool) (ch : Option dado_t) : GenOut :=
  if allocOk then
    let d : dado_t := ⟨seq, seq⟩
    match xQueueSend ch d with
    | (SendRes.ok, ch') =>
        ⟨seq + 1, ch', some d, [Ev.sigTask1, Ev.logTx d.id d.valor, Ev.wdtFeed]⟩
    | (SendRes.full, ch') =>
        ⟨seq + 1, ch', some d,
          [Ev.logDrop d.id d.valor, Ev.freeDado d.id d.valor, Ev.wdtFeed]⟩
  else
    ⟨seq, ch, none, [Ev.errAllocGen]⟩

/-- Run of Task1 over a list of per-cycle inputs (allocation outcome, queue
slot seen by the send). Returns the final `seq` and the packets created. -/
def Task1Run (seq : Nat) : List (Bool × Option dado_t) → Nat × List dado_t
  | [] => (seq, [])
  | (a, ch) :: rest =>
      let o := Task1Cycle seq a ch
      let r := Task1Run o.seq rest
      (r.1, o.created.toList ++ r.2)

/-- Result of one Task2 loop-body execution. `timeout` is the value of the
local `int timeout` counter after the body runs. -/
structure RxOut where
  timeout : Nat
  events : List Ev
  deriving DecidableEq

/-- One iteration of Task2's `for(;;)` body (src/main.c lines 68-113).
`t` is the `timeout` counter entering the cycle, `res` the outcome of the 1 s
`xQueueReceive`, `allocOk` whether the `malloc` of the working copy `tmp`
succeeded. On a receive: copy (or log the allocation error), log RX and free
the copy if it exists, free the original, set BIT_TASK2_OK, zero the counter,
feed the WDT. On a timeout: increment the counter, log the attempt, alert at
exactly 3, and at ≥ 5 log the recovery, call `xQueueReset(fila)` and zero the
counter; the timeout branch feeds no WDT and sets no bit. -/
def Task2Cycle (t : Nat) (res : RecvRes) (allocOk : Bool) : RxOut :=
  match res with
  | RecvRes.got d =>
      let copyEvs :=
        if allocOk then [Ev.logRx d.id d.valor, Ev.freeTmp d.id d.valor]
        else [Ev.errAllocRx]
      ⟨0, copyEvs ++ [Ev.freeOrig d.id d.valor, Ev.sigTask2, Ev.wdtFeed]⟩
  | RecvRes.timedOut =>
      let t1 := t + 1
      let evs := [Ev.logAttempt t1]
        ++ (if t1 = 3 then [Ev.logAlert] else [])
        ++ (if 5 ≤ t1 then [Ev.logRecov, Ev.resetFila] else [])
      ⟨if 5 ≤ t1 then 0 else t1, evs⟩

/-- Run of Task2 over a list of per-cycle inputs (receive outcome, working-copy
allocation outcome), starting from `int timeout = 0`. Returns the final
counter value. -/
def Task2Run (t : Nat) : List (RecvRes × Bool) → Nat
  | [] => t
  | (r, a) :: rest => Task2Run (Task2Cycle t r a).timeout rest

/-- The Task2 `timeout` counter after processing `ins` from the initial state. -/
def task2Counter (ins : List (RecvRes × Bool)) : Nat := Task2Run 0 ins

/-- Whether a receiver-cycle input is a receive timeout. -/
def isTimeoutIn : RecvRes × Bool → Bool
  | (RecvRes.timedOut, _) => true
  | (RecvRes.got _, _) => false

/-- Length of the maximal all-timeout leading run of the input list. -/
def leadingTimeouts : List (RecvRes × Bool) → Nat
  | [] => 0
  | i :: rest => if isTimeoutIn i then leadingTimeouts rest + 1 else 0

/-- Number of consecutive receive timeouts at the end of the input list
(independent of the receiver's code; counts raw trailing timeouts). -/
def trailingTimeouts (ins : List (RecvRes × Bool)) : Nat :=
  leadingTimeouts ins.reverse

/-- State of the event group `event_supervisor`: BIT_TASK1_OK and BIT_TASK2_OK. -/
structure Bits where
  t1 : Bool
  t2 : Bool
  deriving DecidableEq

/-- One operation on the event group: `xEventGroupSetBits` for either bit, or
Task3's `xEventGroupWaitBits(.., BIT_TASK1_OK | BIT_TASK2_OK, pdTRUE, pdFALSE,
pdMS_TO_TICKS(2000))`, which reports the bits set at wake time and clears them
(a timed-out wait finds both bits unset and reports the empty set). -/
inductive SigEv
  | sig1
  | sig2
  | observe
  deriving DecidableEq

/-- Run of the event group over a trace of operations, starting from `b`.
Returns the final bit state and the list of bit-sets each `observe` reported. -/
def runSig : Bits → List SigEv → Bits × List Bits
  | b, [] => (b, [])
  | b, SigEv.sig1 :: r => runSig ⟨true, b.t2⟩ r
  | b, SigEv.sig2 :: r => runSig ⟨b.t1, true⟩ r
  | b, SigEv.observe :: r =>
      let p := runSig ⟨false, false⟩ r
      (p.1, b :: p.2)

/-- Splits a trace into the windows closed by each `observe`: the n-th window
is the list of operations strictly between the (n-1)-th and n-th `observe`
(`acc` holds, reversed, the operations already seen in the current window).
Trailing operations after the last `observe` belong to no window. -/
def windowsAux : List SigEv → List SigEv → List (List SigEv)
  | _, [] => []
  | acc, SigEv.observe :: r => acc.reverse :: windowsAux [] r
  | acc, e :: r => windowsAux (e :: acc) r

/-- The flags an observation of a window should report: exactly those signalled
inside the window. -/
def windowBits (w : List SigEv) : Bits :=
  ⟨w.contains SigEv.sig1, w.contains SigEv.sig2⟩

/-- Task3's health classification (src/main.c lines 129-140): the if-else
chain over the observed bits. -/
inductive Health
  | fullOk
  | onlyTask1
  | onlyTask2
  | silence
  deriving DecidableEq

/-- The classification Task3 logs for an observed bit-set. -/
def Task3Classify (b : Bits) : Health :=
  if b.t1 && b.t2 then Health.fullOk
  else if b.t1 then Health.onlyTask1
  else if b.t2 then Health.onlyTask2
  else Health.silence

/-! Theorems -/

lemma runChan_append (ch : Option dado_t) (l1 l2 : List ChanOp) :
    runChan ch (l1 ++ l2) = runChan (runChan ch l1) l2 := by
  induction l1 generalizing ch with
  | nil => rfl
  | cons op rest ih => cases op <;> simp [runChan, ih]

/-- C1: after any sequence of channel operations, a `try_send` attempt
succeeds iff the single slot is empty immediately before the call, in which
case exactly the sent item is resident afterward; on an occupied slot the send
fails immediately with Full (the embedding's `xQueueSend` is a total function,
so it cannot block), leaves the resident item uncorrupted, and does not take
ownership of the caller's item. -/
theorem C1_try_send_iff_empty (ops : List ChanOp) (d : dado_t) :
    ((xQueueSend (runChan none ops) d).1 = SendRes.ok ↔ runChan none ops = none)
    ∧ (runChan none ops = none → (xQueueSend (runChan none ops) d).2 = some d)
    ∧ (∀ r : dado_t, runChan none ops = some r →
        xQueueSend (runChan none ops) d = (SendRes.full, some r)) := by
  cases h : runChan none ops with
  | none => simp [h, xQueueSend]
  | some r => simp [h, xQueueSend]

/-- Witness for C1 at concrete inputs: the empty history leaves an empty slot
and the send succeeds storing the item; after one successful send the slot is
occupied and a second send fails with Full leaving the first item resident. -/
theorem C1_try_send_iff_empty_witness :
    ((xQueueSend (runChan none []) ⟨1, 1⟩).1 = SendRes.ok ↔ runChan none [] = none)
    ∧ xQueueSend (runChan none [ChanOp.sendOp ⟨1, 1⟩]) ⟨2, 2⟩
        = (SendRes.full, some ⟨1, 1⟩) :=
  ⟨(C1_try_send_iff_empty [] ⟨1, 1⟩).1,
   (C1_try_send_iff_empty [ChanOp.sendOp ⟨1, 1⟩] ⟨2, 2⟩).2.2 ⟨1, 1⟩ rfl⟩

/-- C3: the claim that every task feeds the watchdog once per cycle on every
path is violated by the code: Task1's allocation-failure path (`continue` at
src/main.c line 40) and Task2's entire timeout branch perform no
`esp_task_wdt_reset()`, while the success paths feed it exactly once. -/
theorem C3_wdt_feed_paths :
    (Task1Cycle 1 false none).events.count Ev.wdtFeed = 0
    ∧ (Task2Cycle 0 RecvRes.timedOut true).events.count Ev.wdtFeed = 0
    ∧ (Task1Cycle 1 true none).events.count Ev.wdtFeed = 1
    ∧ (Task2Cycle 0 (RecvRes.got ⟨1, 1⟩) true).events.count Ev.wdtFeed = 1 := by
  decide

/-- C6: Task3 classifies the observed bit-set exactly as: both bits set gives
fully healthy, only BIT_TASK1_OK gives producer-only, only BIT_TASK2_OK gives
consumer-only, neither gives silence; the observation reports each flag
exactly as it stands (no cross-contamination), and a second observation with
no intervening signals reports both flags false. -/
theorem C6_supervisor_classification :
    Task3Classify ⟨true, true⟩ = Health.fullOk
    ∧ Task3Classify ⟨true, false⟩ = Health.onlyTask1
    ∧ Task3Classify ⟨false, true⟩ = Health.onlyTask2
    ∧ Task3Classify ⟨false, false⟩ = Health.silence
    ∧ (∀ b : Bits,
        (runSig b [SigEv.observe, SigEv.observe]).2 = [b, ⟨false, false⟩]) :=
  ⟨rfl, rfl, rfl, rfl, fun _ => rfl⟩

/-- C8: `xQueueReset` empties the slot whatever it held; the receiver cycle
entered with counter 4 that times out (the 5th consecutive timeout) performs
the reset exactly once and leaves the counter at 0; and any operation history
ending in a reset leaves the channel empty. -/
theorem C8_reset_empties (ch : Option dado_t) (a : Bool) (ops : List ChanOp) :
    xQueueReset ch = none
    ∧ (Task2Cycle 4 RecvRes.timedOut a).events.count Ev.resetFila = 1
    ∧ (Task2Cycle 4 RecvRes.timedOut a).timeout = 0
    ∧ runChan none (ops ++ [ChanOp.resetOp]) = none := by
  refine ⟨rfl, ?_, rfl, by rw [runChan_append]; rfl⟩
  cases a <;> decide

/-- C9 counterexample: on a successful receive whose working-copy `malloc`
fails, the RX log line is not emitted at all (the `printf` at src/main.c line
80 is inside the allocation-success branch), refuting the claim that the RX
event occurs exactly once independent of working-copy allocation; the
consumer-liveness signal does still occur. -/
theorem C9_counterexample :
    (Task2Cycle 0 (RecvRes.got ⟨7, 7⟩) false).events.count (Ev.logRx 7 7) = 0
    ∧ (Task2Cycle 0 (RecvRes.got ⟨7, 7⟩) false).events.count Ev.sigTask2 = 1 := by
  decide

/-- C7: BIT_TASK1_OK is set in a Task1 cycle iff the allocation succeeded and
the slot was empty — exactly the condition under which `xQueueSend` returns
`pdTRUE` — never on a drop or an allocation failure; BIT_TASK2_OK is set
exactly once in every successful-receive cycle (whatever the working-copy
allocation did) and never in a timeout cycle, recovery included. -/
theorem C7_signal_only_on_success (seq t : Nat) (ch : Option dado_t)
    (a a2 : Bool) (d : dado_t) :
    (Task1Cycle seq a ch).events.count Ev.sigTask1
      = (if a && ch.isNone then 1 else 0)
    ∧ (xQueueSend ch (⟨seq, seq⟩ : dado_t)).1
      = (if ch.isNone then SendRes.ok else SendRes.full)
    ∧ (Task2Cycle t (RecvRes.got d) a2).events.count Ev.sigTask2 = 1
    ∧ (Task2Cycle t RecvRes.timedOut a2).events.count Ev.sigTask2 = 0 := by
  refine ⟨?_, ?_, ?_, ?_⟩
  · cases a <;> cases ch <;> simp [Task1Cycle, xQueueSend]
  · cases ch <;> rfl
  · cases a2 <;> simp [Task2Cycle]
  · simp [Task2Cycle]
    split <;> split <;> simp

/-- C9 (amended): in every successful-receive cycle the consumer-liveness
signal fires exactly once and the original item is freed exactly once,
independent of the working-copy allocation; the RX log and the working-copy
free each occur exactly once iff that allocation succeeded, and the receptor
allocation-error log occurs exactly when it failed; the counter is zeroed. -/
theorem C9_rx_signal_per_receive (t : Nat) (d : dado_t) (a : Bool) :
    (Task2Cycle t (RecvRes.got d) a).events.count Ev.sigTask2 = 1
    ∧ (Task2Cycle t (RecvRes.got d) a).events.count (Ev.freeOrig d.id d.valor) = 1
    ∧ (Task2Cycle t (RecvRes.got d) a).events.count (Ev.logRx d.id d.valor)
        = (if a then 1 else 0)
    ∧ (Task2Cycle t (RecvRes.got d) a).events.count (Ev.freeTmp d.id d.valor)
        = (if a then 1 else 0)
    ∧ (Task2Cycle t (RecvRes.got d) a).events.count Ev.errAllocRx
        = (if a then 0 else 1)
    ∧ (Task2Cycle t (RecvRes.got d) a).timeout = 0 := by
  cases a <;> simp [Task2Cycle]

lemma Task1Cycle_seq (s : Nat) (a : Bool) (ch : Option dado_t) :
    (Task1Cycle s a ch).seq = if a then s + 1 else s := by
  cases a <;> cases ch <;> rfl

lemma Task1Cycle_created (s : Nat) (a : Bool) (ch : Option dado_t) :
    (Task1Cycle s a ch).created = if a then some ⟨s, s⟩ else none := by
  cases a <;> cases ch <;> rfl

lemma Task1Run_items (s : Nat) (ins : List (Bool × Option dado_t)) :
    (Task1Run s ins).2
      = (List.range' s (ins.countP (fun p => p.1))).map
          (fun n => (⟨n, n⟩ : dado_t)) := by
  induction ins generalizing s with
  | nil => rfl
  | cons i rest ih =>
    obtain ⟨a, ch⟩ := i
    cases a
    · simp [Task1Run, Task1Cycle_seq, Task1Cycle_created, List.countP_cons, ih]
    · simp [Task1Run, Task1Cycle_seq, Task1Cycle_created, List.countP_cons, ih,
        List.range'_succ]

/-- C4: starting from `seq = 1`, the packets Task1 creates over any run are
exactly `{id = n, valor = n}` for `n = 1, 2, …, k` where `k` is the number of
cycles whose allocation succeeded — ids strictly increasing from 1, no repeat,
no gap, `valor = id` — whatever the queue slot looked like at each send
(drops consume the sequence number but never duplicate one). -/
theorem C4_ids_sequential (ins : List (Bool × Option dado_t)) :
    (Task1Run 1 ins).2
      = (List.range' 1 (ins.countP (fun p => p.1))).map
          (fun n => (⟨n, n⟩ : dado_t)) :=
  Task1Run_items 1 ins

lemma Task2Run_append (t : Nat) (ins : List (RecvRes × Bool)) (i : RecvRes × Bool) :
    Task2Run t (ins ++ [i]) = (Task2Cycle (Task2Run t ins) i.1 i.2).timeout := by
  induction ins generalizing t with
  | nil => obtain ⟨r, a⟩ := i; rfl
  | cons j rest ih => obtain ⟨r, a⟩ := j; simp [Task2Run, ih]

lemma trailingTimeouts_append (ins : List (RecvRes × Bool)) (i : RecvRes × Bool) :
    trailingTimeouts (ins ++ [i])
      = if isTimeoutIn i then trailingTimeouts ins + 1 else 0 := by
  simp only [trailingTimeouts, List.reverse_append, List.reverse_singleton,
    List.singleton_append, leadingTimeouts]

lemma task2Counter_mod (ins : List (RecvRes × Bool)) :
    task2Counter ins = trailingTimeouts ins % 5 := by
  induction ins using List.reverseRecOn with
  | nil => rfl
  | append_singleton xs i ih =>
    obtain ⟨r, a⟩ := i
    rw [task2Counter, Task2Run_append, trailingTimeouts_append, ← task2Counter, ih]
    cases r with
    | got d => simp [Task2Cycle, isTimeoutIn]
    | timedOut =>
      simp only [Task2Cycle, isTimeoutIn, if_pos]
      have h5 : trailingTimeouts xs % 5 < 5 := Nat.mod_lt _ (by norm_num)
      have hmod : (trailingTimeouts xs + 1) % 5 = (trailingTimeouts xs % 5 + 1) % 5 := by
        omega
      rw [hmod]
      split <;> omega

/-- C2: the Task2 counter entering a cycle equals the number of consecutive
timeouts since the last success or recovery (`trailingTimeouts % 5`); a
successful receive zeroes it; a timing-out cycle emits the escalation alert
exactly when it is the 3rd such consecutive timeout (two already accumulated)
and then merely steps the counter to 3, and emits the recovery log and the
queue reset exactly when it is the 5th, forcing the counter back to 0. -/
theorem C2_escalation_thresholds (ins : List (RecvRes × Bool)) (a : Bool)
    (d : dado_t) :
    (Task2Cycle (task2Counter ins) (RecvRes.got d) a).timeout = 0
    ∧ task2Counter ins = trailingTimeouts ins % 5
    ∧ (Task2Cycle (task2Counter ins) RecvRes.timedOut a).events.count Ev.logAlert
        = (if trailingTimeouts ins % 5 = 2 then 1 else 0)
    ∧ (Task2Cycle (task2Counter ins) RecvRes.timedOut a).events.count Ev.logRecov
        = (if trailingTimeouts ins % 5 = 4 then 1 else 0)
    ∧ (Task2Cycle (task2Counter ins) RecvRes.timedOut a).events.count Ev.resetFila
        = (if trailingTimeouts ins % 5 = 4 then 1 else 0)
    ∧ (Task2Cycle (task2Counter ins) RecvRes.timedOut a).timeout
        = (if trailingTimeouts ins % 5 = 4 then 0 else trailingTimeouts ins % 5 + 1) := by
  have h5 : trailingTimeouts ins % 5 < 5 := Nat.mod_lt _ (by norm_num)
  rw [task2Counter_mod ins]
  have hcases : trailingTimeouts ins % 5 = 0 ∨ trailingTimeouts ins % 5 = 1
      ∨ trailingTimeouts ins % 5 = 2 ∨ trailingTimeouts ins % 5 = 3
      ∨ trailingTimeouts ins % 5 = 4 := by omega
  refine ⟨rfl, rfl, ?_, ?_, ?_, ?_⟩ <;>
    rcases hcases with h | h | h | h | h <;> rw [h] <;> cases a <;> decide

/-- C10: in every reachable state of the Task2 loop the counter entering a
cycle lies in {0,…,4}, so its transient peak within a cycle is at most 5; a
successful-receive cycle leaves it at 0, a timing-out cycle leaves it at most
4, and the recovery cycle (entered at 4) leaves it at exactly 0. -/
theorem C10_counter_range (ins : List (RecvRes × Bool)) (d : dado_t) (a : Bool) :
    task2Counter ins ≤ 4
    ∧ task2Counter ins + 1 ≤ 5
    ∧ (Task2Cycle (task2Counter ins) (RecvRes.got d) a).timeout = 0
    ∧ (Task2Cycle (task2Counter ins) RecvRes.timedOut a).timeout ≤ 4
    ∧ (Task2Cycle 4 RecvRes.timedOut a).timeout = 0 := by
  have h := task2Counter_mod ins
  have h5 : trailingTimeouts ins % 5 < 5 := Nat.mod_lt _ (by norm_num)
  refine ⟨by omega, by omega, rfl, ?_, rfl⟩
  simp only [Task2Cycle]
  split <;> omega

lemma runSig_windows (tr : List SigEv) :
    ∀ (acc : List SigEv) (b : Bits),
      b.t1 = acc.contains SigEv.sig1 → b.t2 = acc.contains SigEv.sig2 →
      (runSig b tr).2 = (windowsAux acc tr).map windowBits := by
  induction tr with
  | nil => intro acc b _ _; rfl
  | cons e r ih =>
    intro acc b h1 h2
    cases e with
    | sig1 =>
      show (runSig ⟨true, b.t2⟩ r).2 = (windowsAux (SigEv.sig1 :: acc) r).map windowBits
      refine ih (SigEv.sig1 :: acc) ⟨true, b.t2⟩ (by simp) ?_
      simpa using h2
    | sig2 =>
      show (runSig ⟨b.t1, true⟩ r).2 = (windowsAux (SigEv.sig2 :: acc) r).map windowBits
      refine ih (SigEv.sig2 :: acc) ⟨b.t1, true⟩ ?_ (by simp)
      simpa using h1
    | observe =>
      show b :: (runSig ⟨false, false⟩ r).2
          = windowBits acc.reverse :: (windowsAux [] r).map windowBits
      rw [ih [] ⟨false, false⟩ rfl rfl]
      have hb : windowBits acc.reverse = b := by
        cases b
        simp_all [windowBits]
      rw [hb]

/-- C5: from all-clear flags, the bit-sets reported by the successive
`xEventGroupWaitBits` observations over any trace of signal/observe operations
are exactly, window by window, the flags signalled strictly between the
previous clearing observation and this one: no flag is reported that was not
signalled in the window, none signalled in the window goes unreported, no flag
is reported twice for one signal (each operation lies in one window), each
observation clears what it reports, and an observation whose window holds no
signal — a timed-out wait — reports the empty set. -/
theorem C5_observe_and_clear_windows (tr : List SigEv) :
    (runSig ⟨false, false⟩ tr).2 = (windowsAux [] tr).map windowBits :=
  runSig_windows tr [] ⟨false, false⟩ rfl rfl
